import Mathlib

/-!
Verification development for the `image-file` action
(`src/actions/image_file_action.go`).

The Go code is embedded shallowly:

* The struct `ImageFileAction` and the context struct become Lean
  structures (only the context fields this action touches are kept).
* Each method becomes a Lean function.  External effects (open, flock,
  mkfs commands, mkdir, mount, unmount, loop attach/detach/remove,
  symlink resolution, size parsing, fakemachine image creation) are
  driven by oracle structures holding each call`s outcome, and each
  method additionally returns the list of external operations it
  performed, in order, as an event trace.
* Go receiver semantics are modelled explicitly: a method with a value
  receiver (`func (i ImageFileAction) ...`) receives a copy of the
  action, so any assignment to a field of `i` inside it is lost to the
  caller.  Functions embedding such methods either do not return an
  action at all, or return the local copy under a name that makes clear
  the caller discards it (see `PreMachineBody` / `PreMachineCall` and
  the use of `formatFile` inside `Run`).
* Error values: where a claim depends on a message the exact source
  string is kept; error payloads of the external calls themselves are
  threaded through from the oracles.  The loop-remove retry oracle is a
  plain success bit per attempt, so retry exhaustion reports a fixed
  message standing for the final attempt`s error value.
-/

namespace ImageFile

/-- The fields of `debos.DebosContext` used by this action. -/
structure DebosContext where
  Image : String
  ImageMntDir : String
  Scratchdir : String
  deriving Repr, DecidableEq

/-- The `ImageFileAction` struct (configuration fields plus the private
state fields `size`, `loopDev`, `usingLoop`).  The loop device is
represented by its path. -/
structure ImageFileAction where
  ImageName : String
  ImageSize : String
  FS : String
  FSName : String
  size : Int
  loopDev : String
  usingLoop : Bool
  deriving Repr, DecidableEq

/-- External operations performed by the action, recorded in order. -/
inductive Event where
  | openImage : String → Event
  | flock : Event
  | runCommand : List String → Event
  | mkdirAll : String → Event
  | mount : String → String → String → Event
  | closeImage : Event
  | unmountOp : String → Event
  | detach : Event
  | removeAttempt : Nat → Event
  | sleep : Event
  deriving Repr, DecidableEq

/-- Embedding of `formatFile` (lines 59-92).  The method has a value
receiver, so the returned action is the local copy `i`; the Go caller
(`Run`) discards it.  The second component is the command line actually
run (`none` when the switch left `cmdline` empty, i.e. `FS = "none"`);
when a command is run, `context.Image` has been appended to it. -/
def formatFile (i : ImageFileAction) (context : DebosContext) :
    ImageFileAction × Option (List String) :=
  let step : ImageFileAction × List String :=
    if i.FS = "vfat" then (i, ["mkfs.vfat", "-F32", "-n", i.FSName])
    else if i.FS = "btrfs" then (i, ["mkfs.btrfs", "-L", i.FSName, "-f"])
    else if i.FS = "hfs" then (i, ["mkfs.hfs", "-h", "-v", i.FSName])
    else if i.FS = "hfsplus" then (i, ["mkfs.hfsplus", "-v", i.FSName])
    else if i.FS = "hfsx" then
      ({ i with FS := "hfsplus" }, ["mkfs.hfsplus", "-s", "-v", i.FSName])
    else if i.FS = "none" then (i, [])
    else (i, ["mkfs." ++ i.FS, "-L", i.FSName])
  if step.2 = [] then (step.1, none)
  else (step.1, some (step.2 ++ [context.Image]))

/-- Outcomes of the external calls made by `Run` (lines 145-179).
`mkdirResult` is recorded even though the source discards the
`os.MkdirAll` error (`_ = os.MkdirAll(...)`), so that this discarding is
itself a provable property. -/
structure RunOracle where
  openResult : Except String Unit
  flockResult : Except String Unit
  formatResult : Except String Unit
  mkdirResult : Except String Unit
  mountResult : Except String Unit
  symlinkTarget : String → String

/-- The straight-line tail of `Run` after the formatting step (lines
170-178): resolve symlinks (error discarded), set `ImageMntDir`, mkdir
(error discarded), mount, and — via the deferred close — release the
image fd on both mount outcomes. -/
def runMountStage (i : ImageFileAction) (context : DebosContext) (o : RunOracle)
    (fmtEvents : List Event) : List Event × DebosContext × Except String Unit :=
  let dev := o.symlinkTarget context.Image
  let mntDir := context.Scratchdir ++ "/mnt"
  let ctx' := { context with ImageMntDir := mntDir }
  let tr := [Event.openImage context.Image, Event.flock] ++ fmtEvents ++
    [Event.mkdirAll mntDir, Event.mount dev mntDir i.FS, Event.closeImage]
  match o.mountResult with
  | Except.error e => (tr, ctx', Except.error (mntDir ++ " mount failed: " ++ e))
  | Except.ok _ => (tr, ctx', Except.ok ())

/-- Embedding of `Run` (lines 145-179).  Value receiver: `Run` never
persists a field assignment, and in particular the copy of the action
returned by `formatFile` is discarded, so the mount call uses `i.FS` as
`Run` received it.  The deferred `imageFD.Close()` appears as a final
`closeImage` event on every path after a successful open. -/
def Run (i : ImageFileAction) (context : DebosContext) (o : RunOracle) :
    List Event × DebosContext × Except String Unit :=
  match o.openResult with
  | Except.error e => ([Event.openImage context.Image], context, Except.error e)
  | Except.ok _ =>
    match o.flockResult with
    | Except.error e =>
      ([Event.openImage context.Image, Event.flock, Event.closeImage], context,
        Except.error e)
    | Except.ok _ =>
      match (formatFile i context).2 with
      | some c =>
        match o.formatResult with
        | Except.error e =>
          ([Event.openImage context.Image, Event.flock, Event.runCommand c,
            Event.closeImage], context, Except.error e)
        | Except.ok _ => runMountStage i context o [Event.runCommand c]
      | none => runMountStage i context o []

/-- Outcomes of the external calls made by `Cleanup` (lines 181-216).
`removeOk t` is the success bit of the `t`-th `loopDev.Remove()`
attempt. -/
structure CleanupOracle where
  unmountResult : Except String Unit
  detachResult : Except String Unit
  removeOk : Nat → Bool

/-- The retry loop of lines 196-203: `for t := 0; t < 60; t++` around
`loopDev.Remove()`, breaking on the first success and sleeping one
second after every failed attempt.  `fuel` is the number of iterations
left, `t` the current index; the boolean result is `err == nil` after
the loop. -/
def removeLoop (ok : Nat → Bool) : Nat → Nat → List Event × Bool
  | 0, _ => ([], false)
  | fuel + 1, t =>
    if ok t then ([Event.removeAttempt t], true)
    else
      let r := removeLoop ok fuel (t + 1)
      (Event.removeAttempt t :: Event.sleep :: r.1, r.2)

/-- Embedding of `Cleanup` (lines 181-216): unmount first, returning its
error on failure; only then, and only when `usingLoop` is set, detach
(returning its error on failure) and run the bounded removal retry
loop.  Retry exhaustion returns the final attempt`s error, modelled as
a fixed message. -/
def Cleanup (i : ImageFileAction) (context : DebosContext) (o : CleanupOracle) :
    List Event × Except String Unit :=
  match o.unmountResult with
  | Except.error e => ([Event.unmountOp context.ImageMntDir], Except.error e)
  | Except.ok _ =>
    if i.usingLoop then
      match o.detachResult with
      | Except.error e =>
        ([Event.unmountOp context.ImageMntDir, Event.detach], Except.error e)
      | Except.ok _ =>
        let r := removeLoop o.removeOk 60 0
        ([Event.unmountOp context.ImageMntDir, Event.detach] ++ r.1,
          if r.2 then Except.ok () else Except.error "Failed to remove loop device")
    else ([Event.unmountOp context.ImageMntDir], Except.ok ())

/-- Outcomes of the external calls made by `PreNoMachine` (lines
94-123).  `attachResult` carries either the attached loop device path or
the underlying OS error message. -/
structure PreNoMachineOracle where
  fromHumanSize : String → Except String Int
  openResult : Except String Unit
  truncResult : Except String Unit
  attachResult : Except String String

/-- Embedding of `PreNoMachine` (lines 94-123).  Pointer receiver: the
returned action is the caller`s action, so field assignments persist.
On attach failure the underlying error is dropped and a fixed message
returned (line 117); `loopDev` has still been assigned the zero value of
the multi-assignment.  `context.Image` and `usingLoop` are assigned only
after a successful attach. -/
def PreNoMachine (i : ImageFileAction) (context : DebosContext)
    (o : PreNoMachineOracle) : ImageFileAction × DebosContext × Except String Unit :=
  match o.fromHumanSize i.ImageSize with
  | Except.error _ =>
    (i, context, Except.error ("Failed to parse image size: " ++ i.ImageSize))
  | Except.ok size =>
    let i' := { i with size := size }
    match o.openResult with
    | Except.error e =>
      (i', context, Except.error ("Couldn\x27t open image file: " ++ e))
    | Except.ok _ =>
      match o.truncResult with
      | Except.error e =>
        (i', context, Except.error ("Couldn\x27t resize image file: " ++ e))
      | Except.ok _ =>
        match o.attachResult with
        | Except.error _ =>
          ({ i' with loopDev := "" }, context,
            Except.error "Failed to setup loop device - need sudo?")
        | Except.ok dev =>
          ({ i' with loopDev := dev, usingLoop := true },
            { context with Image := dev }, Except.ok ())

/-- Outcomes of the external calls made by `PreMachine` (lines 125-143).
`createImage` receives the image name and the parsed size, as
`m.CreateImage` does. -/
structure PreMachineOracle where
  fromHumanSize : String → Except String Int
  createImage : String → Int → Except String String

/-- The body of `PreMachine` (lines 125-143), acting on the local copy
of the receiver.  Returns that local copy so its fields can be
inspected. -/
def PreMachineBody (i : ImageFileAction) (context : DebosContext)
    (args : List String) (o : PreMachineOracle) :
    ImageFileAction × DebosContext × List String × Except String Unit :=
  match o.fromHumanSize i.ImageSize with
  | Except.error _ =>
    (i, context, args, Except.error ("Failed to parse image size: " ++ i.ImageSize))
  | Except.ok size =>
    let i' := { i with size := size }
    match o.createImage i'.ImageName i'.size with
    | Except.error e => (i', context, args, Except.error e)
    | Except.ok image =>
      (i', { context with Image := image },
        args ++ ["--internal-image", image], Except.ok ())

/-- A call to `PreMachine` as the pipeline sees it: the method has a
value receiver, so the caller`s action is returned unchanged whatever
the body assigned to its copy; context and argument-list mutations go
through pointers and do persist. -/
def PreMachineCall (i : ImageFileAction) (context : DebosContext)
    (args : List String) (o : PreMachineOracle) :
    ImageFileAction × DebosContext × List String × Except String Unit :=
  let r := PreMachineBody i context args o
  (i, r.2.1, r.2.2.1, r.2.2.2)

/-- The image file on disk: `none` when absent, otherwise its byte
contents. -/
abbrev FileState := Option (List Nat)

/-- `os.OpenFile(name, O_WRONLY|O_CREATE, 0666)`: creates an empty file
when absent, leaves existing contents untouched (no `O_TRUNC`). -/
def openFileWronlyCreate (f : FileState) : List Nat := f.getD []

/-- `File.Truncate(n)`: cut the file to its first `n` bytes, or extend
it with zero bytes up to length `n`. -/
def truncateTo (content : List Nat) (n : Nat) : List Nat :=
  if n ≤ content.length then content.take n
  else content ++ List.replicate (n - content.length) 0

/-- The allocation performed by `PreNoMachine` lines 103-113 as an
effect on the image file state: open with `O_WRONLY|O_CREATE`, then
truncate to `n` bytes. -/
def allocate (f : FileState) (n : Nat) : List Nat :=
  truncateTo (openFileWronlyCreate f) n

/-! Trace observations. -/

def isRunCommand : Event → Bool
  | Event.runCommand _ => true
  | _ => false

def isMountEvent : Event → Bool
  | Event.mount _ _ _ => true
  | _ => false

def isClose : Event → Bool
  | Event.closeImage => true
  | _ => false

def isUnmount : Event → Bool
  | Event.unmountOp _ => true
  | _ => false

def isDetach : Event → Bool
  | Event.detach => true
  | _ => false

def isRemoveAttempt : Event → Bool
  | Event.removeAttempt _ => true
  | _ => false

def isSleep : Event → Bool
  | Event.sleep => true
  | _ => false

def countClose (tr : List Event) : Nat := tr.countP isClose
def countUnmount (tr : List Event) : Nat := tr.countP isUnmount
def countDetach (tr : List Event) : Nat := tr.countP isDetach
def countRemoveAttempts (tr : List Event) : Nat := tr.countP isRemoveAttempt
def countSleep (tr : List Event) : Nat := tr.countP isSleep

/-- No formatting command and no mount call occurs before the `flock`
call. -/
def lockBeforeWork : List Event → Bool
  | [] => true
  | Event.flock :: _ => true
  | e :: rest => !isRunCommand e && !isMountEvent e && lockBeforeWork rest

/-- Every mount call is strictly followed by the close (hence unlock) of
the image fd: the lock is never released before the mount call has
returned. -/
def lockHeldAcrossMount : List Event → Bool
  | [] => true
  | e :: rest => (!isMountEvent e || rest.any isClose) && lockHeldAcrossMount rest

/-- The final recorded operation is the close of the image fd. -/
def endsWithClose : List Event → Bool
  | [] => false
  | [e] => isClose e
  | _ :: rest => endsWithClose rest

/-! Concrete sample inputs used by counterexamples and witnesses. -/

/-- Sample configuration with `fs: hfsx`. -/
def hfsxAction : ImageFileAction :=
  { ImageName := "debian.img", ImageSize := "1GB", FS := "hfsx",
    FSName := "debian", size := 0, loopDev := "", usingLoop := false }

/-- Sample context as left by a successful direct preparation. -/
def sampleContext : DebosContext :=
  { Image := "/dev/loop0", ImageMntDir := "", Scratchdir := "/scratch" }

/-- Run oracle in which every external call succeeds and the image path
resolves to itself. -/
def okRunOracle : RunOracle :=
  { openResult := Except.ok (), flockResult := Except.ok (),
    formatResult := Except.ok (), mkdirResult := Except.ok (),
    mountResult := Except.ok (), symlinkTarget := fun s => s }

/-- Sample configuration with the given filesystem type. -/
def mkAction (fs : String) : ImageFileAction :=
  { ImageName := "debian.img", ImageSize := "1GB", FS := fs,
    FSName := "debian", size := 0, loopDev := "", usingLoop := false }

/-- C1: for `fs: hfsx`, `formatFile` builds the case-sensitive HFS+
command and normalizes the copy`s `FS` field to `hfsplus` (line 76), but
the receiver is passed by value, so the `Run` that called it still
mounts with type `hfsx`: the type passed to mount is not `hfsplus`.
This contradicts the source`s own comment (line 75) that hfsx "should be
treated as normal hfs+ from now on". -/
theorem hfsx_normalization_lost_at_mount :
    (formatFile hfsxAction sampleContext).1.FS = "hfsplus" ∧
    (formatFile hfsxAction sampleContext).2 =
      some ["mkfs.hfsplus", "-s", "-v", "debian", "/dev/loop0"] ∧
    Event.mount "/dev/loop0" "/scratch/mnt" "hfsx" ∈
      (Run hfsxAction sampleContext okRunOracle).1 ∧
    ¬ Event.mount "/dev/loop0" "/scratch/mnt" "hfsplus" ∈
      (Run hfsxAction sampleContext okRunOracle).1 := by
  refine ⟨rfl, rfl, ?_, ?_⟩ <;> decide

/-- Every event of a `Run` trace in which no formatting command line was
built is something other than a command invocation. -/
lemma run_no_format_command (i : ImageFileAction) (ctx : DebosContext)
    (o : RunOracle) (hf : (formatFile i ctx).2 = none) :
    ((Run i ctx o).1.all fun e => !isRunCommand e) = true := by
  rcases h1 : o.openResult with e1 | u1
  · simp [Run, h1, isRunCommand]
  · rcases h2 : o.flockResult with e2 | u2
    · simp [Run, h1, h2, isRunCommand]
    · rcases h3 : o.mountResult with e3 | u3 <;>
        simp [Run, runMountStage, h1, h2, h3, hf, isRunCommand]

/-- C5: the formatting dispatch table.  Each named filesystem type
yields exactly its command line (with the configured label and, appended
last, the image device); `none` yields no command at all — the whole run
phase then contains no command invocation; any other string yields the
generic `mkfs.<type> -L <label>` command. -/
theorem format_dispatch_table (i : ImageFileAction) (ctx : DebosContext)
    (o : RunOracle) :
    (i.FS = "vfat" → (formatFile i ctx).2 =
      some ["mkfs.vfat", "-F32", "-n", i.FSName, ctx.Image]) ∧
    (i.FS = "btrfs" → (formatFile i ctx).2 =
      some ["mkfs.btrfs", "-L", i.FSName, "-f", ctx.Image]) ∧
    (i.FS = "hfs" → (formatFile i ctx).2 =
      some ["mkfs.hfs", "-h", "-v", i.FSName, ctx.Image]) ∧
    (i.FS = "hfsplus" → (formatFile i ctx).2 =
      some ["mkfs.hfsplus", "-v", i.FSName, ctx.Image]) ∧
    (i.FS = "hfsx" → (formatFile i ctx).2 =
      some ["mkfs.hfsplus", "-s", "-v", i.FSName, ctx.Image]) ∧
    (i.FS = "none" → (formatFile i ctx).2 = none ∧
      ((Run i ctx o).1.all fun e => !isRunCommand e) = true) ∧
    (i.FS ≠ "vfat" → i.FS ≠ "btrfs" → i.FS ≠ "hfs" → i.FS ≠ "hfsplus" →
      i.FS ≠ "hfsx" → i.FS ≠ "none" → (formatFile i ctx).2 =
      some ["mkfs." ++ i.FS, "-L", i.FSName, ctx.Image]) := by
  refine ⟨?_, ?_, ?_, ?_, ?_, ?_, ?_⟩
  · intro h; simp [formatFile, h]
  · intro h; simp [formatFile, h]
  · intro h; simp [formatFile, h]
  · intro h; simp [formatFile, h]
  · intro h; simp [formatFile, h]
  · intro h
    have hf : (formatFile i ctx).2 = none := by simp [formatFile, h]
    exact ⟨hf, run_no_format_command i ctx o hf⟩
  · intro h1 h2 h3 h4 h5 h6; simp [formatFile, h1, h2, h3, h4, h5, h6]

/-- Witness for C5 at three concrete configurations: a named type, the
`none` type, and a generic pass-through type. -/
theorem format_dispatch_table_witness :
    (formatFile (mkAction "vfat") sampleContext).2 =
      some ["mkfs.vfat", "-F32", "-n", "debian", "/dev/loop0"] ∧
    (formatFile (mkAction "none") sampleContext).2 = none ∧
    (formatFile (mkAction "ext4") sampleContext).2 =
      some ["mkfs.ext4", "-L", "debian", "/dev/loop0"] :=
  ⟨(format_dispatch_table (mkAction "vfat") sampleContext okRunOracle).1 rfl,
    ((format_dispatch_table (mkAction "none") sampleContext
      okRunOracle).2.2.2.2.2.1 rfl).1,
    (format_dispatch_table (mkAction "ext4") sampleContext
      okRunOracle).2.2.2.2.2.2 (by decide) (by decide) (by decide) (by decide)
      (by decide) (by decide)⟩

/-- C7: `allocate` is idempotent, always leaves a file of exactly the
requested length, and cuts a larger existing file down to its first `n`
bytes rather than appending. -/
theorem allocate_idempotent (f : FileState) (n : Nat) :
    allocate (some (allocate f n)) n = allocate f n ∧
    (allocate f n).length = n ∧
    (∀ c, f = some c → n ≤ c.length → allocate f n = List.take n c) := by
  have hlen : ∀ l : List Nat, (truncateTo l n).length = n := by
    intro l
    unfold truncateTo
    split
    · simp only [List.length_take]; omega
    · simp only [List.length_append, List.length_replicate]; omega
  have hfix : ∀ l : List Nat, l.length = n → truncateTo l n = l := by
    intro l h
    unfold truncateTo
    rw [if_pos (le_of_eq h.symm), ← h, List.take_length]
  refine ⟨?_, hlen _, ?_⟩
  · show truncateTo (truncateTo (f.getD []) n) n = truncateTo (f.getD []) n
    exact hfix _ (hlen _)
  · intro c hc hn
    subst hc
    show truncateTo c n = List.take n c
    unfold truncateTo
    rw [if_pos hn]

/-- Witness for C7: allocating two bytes over an existing three-byte
file truncates it. -/
theorem allocate_idempotent_witness :
    allocate (some [1, 2, 3]) 2 = List.take 2 [1, 2, 3] :=
  (allocate_idempotent (some [1, 2, 3]) 2).2.2 [1, 2, 3] rfl (by decide)

/-- C4: lock discipline of the run phase.  No formatting command and no
mount happens before the `flock` call; any trace containing a format
command or a mount reached the lock, i.e. both open and flock succeeded;
every mount is strictly followed by the close of the locked fd (the
deferred close runs only after the mount call returned, on success and
on failure alike); and once the fd is open, every exit path closes it
exactly once, as the last operation. -/
theorem run_lock_scope (i : ImageFileAction) (ctx : DebosContext) (o : RunOracle) :
    lockBeforeWork (Run i ctx o).1 = true ∧
    lockHeldAcrossMount (Run i ctx o).1 = true ∧
    (o.openResult = Except.ok () →
      countClose (Run i ctx o).1 = 1 ∧ endsWithClose (Run i ctx o).1 = true) ∧
    ((Run i ctx o).1.any isRunCommand = true →
      o.openResult = Except.ok () ∧ o.flockResult = Except.ok ()) ∧
    ((Run i ctx o).1.any isMountEvent = true →
      o.openResult = Except.ok () ∧ o.flockResult = Except.ok ()) := by
  rcases h1 : o.openResult with e1 | u1
  · simp [Run, h1, lockBeforeWork, lockHeldAcrossMount, countClose,
      endsWithClose, isRunCommand, isMountEvent, isClose]
  · cases u1
    rcases h2 : o.flockResult with e2 | u2
    · simp [Run, h1, h2, lockBeforeWork, lockHeldAcrossMount, countClose,
        endsWithClose, isRunCommand, isMountEvent, isClose, List.countP_cons]
    · cases u2
      rcases hf : (formatFile i ctx).2 with _ | c
      · rcases h3 : o.mountResult with e3 | u3 <;>
          simp [Run, runMountStage, h1, h2, h3, hf, lockBeforeWork,
            lockHeldAcrossMount, countClose, endsWithClose, isRunCommand,
            isMountEvent, isClose, List.countP_cons]
      · rcases h4 : o.formatResult with e4 | u4
        · simp [Run, h1, h2, h4, hf, lockBeforeWork, lockHeldAcrossMount,
            countClose, endsWithClose, isRunCommand, isMountEvent, isClose,
            List.countP_cons]
        · rcases h3 : o.mountResult with e3 | u3 <;>
            simp [Run, runMountStage, h1, h2, h3, h4, hf, lockBeforeWork,
              lockHeldAcrossMount, countClose, endsWithClose, isRunCommand,
              isMountEvent, isClose, List.countP_cons]

/-- Witness for C4 at the sample hfsx configuration with the all-success
oracle: the opened fd is closed exactly once, as the last operation, and
the trace (which does mount) implies the lock was taken. -/
theorem run_lock_scope_witness :
    (countClose (Run hfsxAction sampleContext okRunOracle).1 = 1 ∧
      endsWithClose (Run hfsxAction sampleContext okRunOracle).1 = true) ∧
    (okRunOracle.openResult = Except.ok () ∧
      okRunOracle.flockResult = Except.ok ()) :=
  ⟨(run_lock_scope hfsxAction sampleContext okRunOracle).2.2.1 rfl,
    (run_lock_scope hfsxAction sampleContext okRunOracle).2.2.2.2 (by decide)⟩

/-- C9: `Run` never reads the outcome of the recursive mount-directory
creation (the source discards it, line 172): the whole result of the run
phase is unchanged under any substitution of that outcome, the mount is
attempted whenever the phase reaches it, and a bad mount directory shows
up only as the mount error. -/
theorem mkdir_error_ignored (i : ImageFileAction) (ctx : DebosContext)
    (o : RunOracle) (r : Except String Unit) :
    Run i ctx { o with mkdirResult := r } = Run i ctx o ∧
    (o.openResult = Except.ok () → o.flockResult = Except.ok () →
      o.formatResult = Except.ok () →
      (Run i ctx o).1.any isMountEvent = true ∧
      (∀ e, o.mountResult = Except.error e → (Run i ctx o).2.2 =
        Except.error (ctx.Scratchdir ++ "/mnt" ++ " mount failed: " ++ e))) := by
  constructor
  · rfl
  · intro h1 h2 h4
    rcases hf : (formatFile i ctx).2 with _ | c <;>
      rcases h3 : o.mountResult with e3 | u3 <;>
      simp [Run, runMountStage, h1, h2, h3, h4, hf, isMountEvent]

/-- Run oracle where everything succeeds except the mount itself. -/
def failMountOracle : RunOracle :=
  { okRunOracle with mountResult := Except.error "unknown filesystem type" }

/-- Witness for C9: with every call succeeding except the mount, the
result is the same whatever the discarded mkdir outcome, the mount is
still attempted, and the run phase fails with the mount error. -/
theorem mkdir_error_ignored_witness :
    Run hfsxAction sampleContext
      { failMountOracle with mkdirResult := Except.error "mkdir denied" } =
      Run hfsxAction sampleContext failMountOracle ∧
    (Run hfsxAction sampleContext failMountOracle).1.any isMountEvent = true ∧
    (Run hfsxAction sampleContext failMountOracle).2.2 = Except.error
      (sampleContext.Scratchdir ++ "/mnt" ++ " mount failed: " ++
        "unknown filesystem type") :=
  ⟨(mkdir_error_ignored hfsxAction sampleContext failMountOracle
      (Except.error "mkdir denied")).1,
    ((mkdir_error_ignored hfsxAction sampleContext failMountOracle
      (Except.error "mkdir denied")).2 rfl rfl rfl).1,
    ((mkdir_error_ignored hfsxAction sampleContext failMountOracle
      (Except.error "mkdir denied")).2 rfl rfl rfl).2
      "unknown filesystem type" rfl⟩

/-- Every operation recorded by the removal retry loop is a removal
attempt or a sleep. -/
lemma removeLoop_events (ok : Nat → Bool) :
    ∀ fuel t, ∀ e ∈ (removeLoop ok fuel t).1,
      isRemoveAttempt e = true ∨ e = Event.sleep := by
  intro fuel
  induction fuel with
  | zero => intro t e he; simp [removeLoop] at he
  | succ n ih =>
    intro t e he
    by_cases h : ok t = true
    · simp [removeLoop, h] at he
      subst he
      left; rfl
    · simp [removeLoop, h] at he
      rcases he with rfl | rfl | he
      · left; rfl
      · right; rfl
      · exact ih (t + 1) e he

/-- Behaviour of the bounded removal retry loop, by induction on the
remaining fuel: at most `fuel` attempts are made; the loop succeeds
exactly when one of the next `fuel` attempts succeeds; on success the
final attempt is the only one not followed by a sleep; on exhaustion
every one of the `fuel` attempts was made and slept after; and when the
first success is attempt `j`, exactly `j + 1` attempts are made. -/
lemma removeLoop_spec (ok : Nat → Bool) :
    ∀ fuel t,
      countRemoveAttempts (removeLoop ok fuel t).1 ≤ fuel ∧
      ((removeLoop ok fuel t).2 = true ↔ ∃ j, j < fuel ∧ ok (t + j) = true) ∧
      ((removeLoop ok fuel t).2 = true →
        countSleep (removeLoop ok fuel t).1 + 1 =
          countRemoveAttempts (removeLoop ok fuel t).1) ∧
      ((removeLoop ok fuel t).2 = false →
        countRemoveAttempts (removeLoop ok fuel t).1 = fuel ∧
        countSleep (removeLoop ok fuel t).1 = fuel) ∧
      (∀ j, j < fuel → ok (t + j) = true →
        (∀ s, s < j → ok (t + s) = false) →
        countRemoveAttempts (removeLoop ok fuel t).1 = j + 1) := by
  intro fuel
  induction fuel with
  | zero =>
    intro t
    refine ⟨?_, ?_, ?_, ?_, ?_⟩ <;>
      simp [removeLoop, countRemoveAttempts, countSleep]
  | succ n ih =>
    intro t
    by_cases h : ok t = true
    · refine ⟨?_, ?_, ?_, ?_, ?_⟩
      · simp [removeLoop, h, countRemoveAttempts, List.countP_cons,
          isRemoveAttempt]
      · constructor
        · intro _
          exact ⟨0, Nat.succ_pos n, by simpa using h⟩
        · intro _
          simp [removeLoop, h]
      · intro _
        simp [removeLoop, h, countRemoveAttempts, countSleep,
          List.countP_cons, isRemoveAttempt, isSleep]
      · intro hfail
        simp [removeLoop, h] at hfail
      · intro j hj hok hmin
        have hj0 : j = 0 := by
          by_contra hne
          have h0 : ok (t + 0) = false := hmin 0 (Nat.pos_of_ne_zero hne)
          simp [h] at h0
        subst hj0
        simp [removeLoop, h, countRemoveAttempts, List.countP_cons,
          isRemoveAttempt]
    · have hfalse : ok t = false := Bool.not_eq_true _ ▸ Bool.of_not_eq_true h
      obtain ⟨ihA, ihB, ihC, ihD, ihE⟩ := ih (t + 1)
      have htr : (removeLoop ok (n + 1) t).1 =
          Event.removeAttempt t :: Event.sleep ::
            (removeLoop ok n (t + 1)).1 := by
        simp [removeLoop, hfalse]
      have hres : (removeLoop ok (n + 1) t).2 =
          (removeLoop ok n (t + 1)).2 := by
        simp [removeLoop, hfalse]
      have hcA : countRemoveAttempts (removeLoop ok (n + 1) t).1 =
          countRemoveAttempts (removeLoop ok n (t + 1)).1 + 1 := by
        rw [htr]
        simp [countRemoveAttempts, List.countP_cons, isRemoveAttempt, isSleep]
      have hcS : countSleep (removeLoop ok (n + 1) t).1 =
          countSleep (removeLoop ok n (t + 1)).1 + 1 := by
        rw [htr]
        simp [countSleep, List.countP_cons, isRemoveAttempt, isSleep]
      refine ⟨?_, ?_, ?_, ?_, ?_⟩
      · rw [hcA]; omega
      · rw [hres, ihB]
        constructor
        · rintro ⟨j, hj, hokj⟩
          refine ⟨j + 1, by omega, ?_⟩
          have harith : t + (j + 1) = t + 1 + j := by omega
          rw [harith]; exact hokj
        · rintro ⟨j, hj, hokj⟩
          cases j with
          | zero =>
            simp at hokj
            simp [hokj] at hfalse
          | succ k =>
            refine ⟨k, by omega, ?_⟩
            have harith : t + 1 + k = t + (k + 1) := by omega
            rw [harith]; exact hokj
      · intro htrue
        rw [hres] at htrue
        have := ihC htrue
        rw [hcA, hcS]; omega
      · intro hfail
        rw [hres] at hfail
        obtain ⟨hA2, hS2⟩ := ihD hfail
        rw [hcA, hcS]; omega
      · intro j hj hok hmin
        cases j with
        | zero =>
          simp at hok
          simp [hok] at hfalse
        | succ k =>
          have hok' : ok (t + 1 + k) = true := by
            have harith : t + 1 + k = t + (k + 1) := by omega
            rw [harith]; exact hok
          have hmin' : ∀ s, s < k → ok (t + 1 + s) = false := by
            intro s hs
            have harith : t + 1 + s = t + (s + 1) := by omega
            rw [harith]; exact hmin (s + 1) (by omega)
          have := ihE k (by omega) hok' hmin'
          rw [hcA, this]

/-- Sample action state after a successful direct preparation: the
action owns the loop device. -/
def loopAction : ImageFileAction :=
  { mkAction "ext4" with usingLoop := true, loopDev := "/dev/loop0" }

/-- Cleanup oracle where unmount and detach succeed and removal attempts
0 and 1 fail, attempt 2 succeeds. -/
def retryOracle : CleanupOracle :=
  { unmountResult := Except.ok (), detachResult := Except.ok (),
    removeOk := fun t => decide (2 ≤ t) }

/-- Cleanup oracle whose unmount fails even though every loop-device
operation would succeed. -/
def failUnmountOracle : CleanupOracle :=
  { unmountResult := Except.error "device busy",
    detachResult := Except.ok (), removeOk := fun _ => true }

/-- C3: behaviour of the loop-device removal retries during cleanup,
when the retry loop is reached (device owned, unmount and detach
succeeded): at most 60 attempts; cleanup succeeds exactly when one of
the 60 attempts succeeds; the retry-exhausted error is reported exactly
when all 60 attempts fail; when the first success is attempt `j` the
loop stops after `j + 1` attempts; and every attempt except a final
successful one is followed by a one-second sleep. -/
theorem remove_retry_bounded (i : ImageFileAction) (ctx : DebosContext)
    (o : CleanupOracle) (hloop : i.usingLoop = true)
    (hun : o.unmountResult = Except.ok ())
    (hdet : o.detachResult = Except.ok ()) :
    countRemoveAttempts (Cleanup i ctx o).1 ≤ 60 ∧
    ((Cleanup i ctx o).2 = Except.ok () ↔
      ∃ j, j < 60 ∧ o.removeOk j = true) ∧
    ((Cleanup i ctx o).2 = Except.error "Failed to remove loop device" ↔
      ∀ t, t < 60 → o.removeOk t = false) ∧
    (∀ j, j < 60 → o.removeOk j = true →
      (∀ s, s < j → o.removeOk s = false) →
      countRemoveAttempts (Cleanup i ctx o).1 = j + 1) ∧
    ((Cleanup i ctx o).2 = Except.ok () →
      countSleep (Cleanup i ctx o).1 + 1 =
        countRemoveAttempts (Cleanup i ctx o).1) := by
  have hC : Cleanup i ctx o =
      ([Event.unmountOp ctx.ImageMntDir, Event.detach] ++
        (removeLoop o.removeOk 60 0).1,
        if (removeLoop o.removeOk 60 0).2 then Except.ok ()
        else Except.error "Failed to remove loop device") := by
    simp [Cleanup, hun, hloop, hdet]
  obtain ⟨sA, sB, sC, sD, sE⟩ := removeLoop_spec o.removeOk 60 0
  have hAtt : countRemoveAttempts (Cleanup i ctx o).1 =
      countRemoveAttempts (removeLoop o.removeOk 60 0).1 := by
    rw [hC]
    simp [countRemoveAttempts, List.countP_append, List.countP_cons,
      isRemoveAttempt]
  have hSl : countSleep (Cleanup i ctx o).1 =
      countSleep (removeLoop o.removeOk 60 0).1 := by
    rw [hC]
    simp [countSleep, List.countP_append, List.countP_cons, isSleep]
  have hres : (Cleanup i ctx o).2 =
      (if (removeLoop o.removeOk 60 0).2 then Except.ok ()
        else Except.error "Failed to remove loop device") := by
    rw [hC]
  refine ⟨?_, ?_, ?_, ?_, ?_⟩
  · rw [hAtt]; exact sA
  · rw [hres]
    constructor
    · intro hok
      have hr : (removeLoop o.removeOk 60 0).2 = true := by
        by_contra hr
        simp only [Bool.not_eq_true] at hr
        rw [hr] at hok
        simp at hok
      simpa using sB.mp hr
    · rintro ⟨j, hj, hok⟩
      have hr : (removeLoop o.removeOk 60 0).2 = true :=
        sB.mpr ⟨j, hj, by simpa using hok⟩
      rw [if_pos hr]
  · rw [hres]
    constructor
    · intro herr
      have hr : (removeLoop o.removeOk 60 0).2 = false := by
        by_contra hr
        simp only [Bool.not_eq_false] at hr
        rw [if_pos hr] at herr
        cases herr
      intro s hs
      by_contra hnf
      simp only [Bool.not_eq_false] at hnf
      have hcontra : (removeLoop o.removeOk 60 0).2 = true :=
        sB.mpr ⟨s, hs, by simpa using hnf⟩
      rw [hcontra] at hr; cases hr
    · intro hall
      have hr : (removeLoop o.removeOk 60 0).2 = false := by
        by_contra hr
        simp only [Bool.not_eq_false] at hr
        obtain ⟨j, hj, hok⟩ := sB.mp hr
        have hjf := hall j hj
        simp only [Nat.zero_add] at hok
        rw [hjf] at hok; cases hok
      rw [if_neg (by simp [hr])]
  · intro j hj hok hmin
    rw [hAtt]
    exact sE j hj (by simpa using hok) (fun s hs => by simpa using hmin s hs)
  · intro hok2
    rw [hres] at hok2
    by_cases hr : (removeLoop o.removeOk 60 0).2 = true
    · rw [hAtt, hSl]
      exact sC hr
    · simp only [Bool.not_eq_true] at hr
      rw [hr] at hok2
      simp at hok2

/-- Witness for C3: with removal failing twice then succeeding, the
retry loop of the concrete cleanup makes exactly three attempts. -/
theorem remove_retry_bounded_witness :
    countRemoveAttempts (Cleanup loopAction sampleContext retryOracle).1 = 2 + 1 :=
  (remove_retry_bounded loopAction sampleContext retryOracle rfl rfl
    rfl).2.2.2.1 2 (by decide) (by decide) (fun s hs => by
      interval_cases s <;> decide)

/-- C2 counterexample: in a cleanup where the action owns the loop
device but the unmount fails, no release is attempted at all — the
detach and removal counts are zero although `usingLoop` is true, so
release is not attempted "exactly once if and only if ownsLoopDevice is
true". -/
theorem cleanup_unmount_failure_skips_release :
    loopAction.usingLoop = true ∧
    countUnmount (Cleanup loopAction sampleContext failUnmountOracle).1 = 1 ∧
    countDetach (Cleanup loopAction sampleContext failUnmountOracle).1 = 0 ∧
    countRemoveAttempts
      (Cleanup loopAction sampleContext failUnmountOracle).1 = 0 ∧
    (Cleanup loopAction sampleContext failUnmountOracle).2 =
      Except.error "device busy" := by
  refine ⟨rfl, rfl, rfl, rfl, rfl⟩

/-- C2 (amended): every cleanup attempts unmount exactly once; when the
unmount succeeds, release (beginning with detach) is attempted exactly
once if and only if the action owns the loop device; when the unmount
fails, cleanup returns the unmount error at once and no release is
attempted even for an owned device. -/
theorem cleanup_attempt_discipline (i : ImageFileAction) (ctx : DebosContext)
    (o : CleanupOracle) :
    countUnmount (Cleanup i ctx o).1 = 1 ∧
    (o.unmountResult = Except.ok () →
      countDetach (Cleanup i ctx o).1 = (if i.usingLoop then 1 else 0)) ∧
    (∀ e, o.unmountResult = Except.error e →
      (Cleanup i ctx o).2 = Except.error e ∧
      countDetach (Cleanup i ctx o).1 = 0 ∧
      countRemoveAttempts (Cleanup i ctx o).1 = 0) := by
  have hdz : ∀ fuel t, countDetach (removeLoop o.removeOk fuel t).1 = 0 := by
    intro fuel t
    rw [countDetach, List.countP_eq_zero]
    intro e he
    rcases removeLoop_events o.removeOk fuel t e he with hatt | rfl
    · cases e <;> simp_all [isRemoveAttempt, isDetach]
    · simp [isDetach]
  have huz : ∀ fuel t, countUnmount (removeLoop o.removeOk fuel t).1 = 0 := by
    intro fuel t
    rw [countUnmount, List.countP_eq_zero]
    intro e he
    rcases removeLoop_events o.removeOk fuel t e he with hatt | rfl
    · cases e <;> simp_all [isRemoveAttempt, isUnmount]
    · simp [isUnmount]
  rcases h1 : o.unmountResult with e1 | u1
  · refine ⟨?_, ?_, ?_⟩
    · simp [Cleanup, h1, countUnmount, List.countP_cons, isUnmount]
    · intro hcontra; simp at hcontra
    · intro e he
      injection he with he
      subst he
      refine ⟨?_, ?_, ?_⟩ <;>
        simp [Cleanup, h1, countDetach, countRemoveAttempts, countUnmount,
          List.countP_cons, isDetach, isRemoveAttempt, isUnmount]
  · cases u1
    rcases hl : i.usingLoop
    · refine ⟨?_, ?_, ?_⟩
      · simp [Cleanup, h1, hl, countUnmount, List.countP_cons, isUnmount]
      · intro _
        simp [Cleanup, h1, hl, countDetach, List.countP_cons, isDetach]
      · intro e he; simp at he
    · rcases h2 : o.detachResult with e2 | u2
      · refine ⟨?_, ?_, ?_⟩
        · simp [Cleanup, h1, hl, h2, countUnmount, List.countP_cons, isUnmount]
        · intro _
          simp [Cleanup, h1, hl, h2, countDetach, List.countP_cons, isDetach]
        · intro e he; simp at he
      · cases u2
        have hC : (Cleanup i ctx o).1 =
            [Event.unmountOp ctx.ImageMntDir, Event.detach] ++
              (removeLoop o.removeOk 60 0).1 := by
          simp [Cleanup, h1, hl, h2]
        refine ⟨?_, ?_, ?_⟩
        · rw [hC]
          have h0 : List.countP isUnmount (removeLoop o.removeOk 60 0).1 = 0 :=
            huz 60 0
          simp only [countUnmount, List.countP_append, h0]
          rfl
        · intro _
          rw [hC]
          have h0 : List.countP isDetach (removeLoop o.removeOk 60 0).1 = 0 :=
            hdz 60 0
          simp only [countDetach, List.countP_append, h0, hl]
          rfl
        · intro e he; simp at he

/-- Witness for C2 covering both branches of the amended statement: the
successful-unmount cleanup of an owned device attempts the detach once,
and the failed-unmount cleanup attempts no detach and no removal and
returns the unmount error. -/
theorem cleanup_attempt_discipline_witness :
    countDetach (Cleanup loopAction sampleContext retryOracle).1 =
      (if loopAction.usingLoop then 1 else 0) ∧
    ((Cleanup loopAction sampleContext failUnmountOracle).2 =
      Except.error "device busy" ∧
    countDetach (Cleanup loopAction sampleContext failUnmountOracle).1 = 0 ∧
    countRemoveAttempts
      (Cleanup loopAction sampleContext failUnmountOracle).1 = 0) :=
  ⟨(cleanup_attempt_discipline loopAction sampleContext retryOracle).2.1 rfl,
    (cleanup_attempt_discipline loopAction sampleContext
      failUnmountOracle).2.2 "device busy" rfl⟩

/-- Delegated-preparation oracle where parsing yields 10^9 bytes and the
machine provides the device `/dev/vda`. -/
def premOracle : PreMachineOracle :=
  { fromHumanSize := fun _ => Except.ok 1000000000,
    createImage := fun _ _ => Except.ok "/dev/vda" }

/-- Direct-preparation oracle where every call succeeds. -/
def dirOracle : PreNoMachineOracle :=
  { fromHumanSize := fun _ => Except.ok 1000000000,
    openResult := Except.ok (), truncResult := Except.ok (),
    attachResult := Except.ok "/dev/loop0" }

/-- Direct-preparation oracle where only the loop attach fails. -/
def failAttachOracle : PreNoMachineOracle :=
  { fromHumanSize := fun _ => Except.ok 1000000000,
    openResult := Except.ok (), truncResult := Except.ok (),
    attachResult := Except.error "permission denied" }

/-- C6 counterexample: a delegated preparation that succeeds (size
parsed as 10^9, device created) computes the parsed size — it is stored
in the local copy of the action — but the caller`s action still has
`size = 0` afterwards, because `PreMachine` has a value receiver.  The
byte count is not cached in the action`s state. -/
theorem premachine_size_not_cached :
    premOracle.fromHumanSize (mkAction "ext4").ImageSize =
      Except.ok 1000000000 ∧
    (PreMachineCall (mkAction "ext4") sampleContext [] premOracle).2.2.2 =
      Except.ok () ∧
    (PreMachineBody (mkAction "ext4") sampleContext [] premOracle).1.size =
      1000000000 ∧
    (PreMachineCall (mkAction "ext4") sampleContext [] premOracle).1.size = 0 ∧
    (0 : Int) ≠ 1000000000 := by
  exact ⟨rfl, rfl, rfl, rfl, by decide⟩

/-- C6 (amended): on the direct path (`PreNoMachine`, pointer receiver)
the parsed byte count is stored in the action`s `size` field; on the
delegated path (`PreMachine`, value receiver) the caller`s action is
unchanged — the parsed size lives only in the discarded copy.  No later
phase writes the action, so what this theorem establishes persists for
the action`s lifetime. -/
theorem size_caching_per_path (i : ImageFileAction) (ctx : DebosContext)
    (args : List String) (o : PreNoMachineOracle) (om : PreMachineOracle)
    (n : Int) :
    (o.fromHumanSize i.ImageSize = Except.ok n →
      (PreNoMachine i ctx o).1.size = n) ∧
    (PreMachineCall i ctx args om).1 = i := by
  constructor
  · intro h
    rcases h2 : o.openResult with e2 | u2 <;>
      rcases h3 : o.truncResult with e3 | u3 <;>
      rcases h4 : o.attachResult with e4 | d4 <;>
      simp [PreNoMachine, h, h2, h3, h4]
  · rfl

/-- Witness for C6 (amended): the direct preparation stores the parsed
10^9 bytes in the action. -/
theorem size_caching_per_path_witness :
    (PreNoMachine (mkAction "ext4") sampleContext dirOracle).1.size =
      1000000000 :=
  (size_caching_per_path (mkAction "ext4") sampleContext [] dirOracle
    premOracle 1000000000).1 rfl

/-- C8: when the delegated preparation succeeds, the created device path
is recorded in the shared context`s image field and
`--internal-image <devicePath>` is appended to the argument list; the
action`s ownership flag stays false, and a cleanup of such an action
never attempts a detach or a removal. -/
theorem premachine_records_device (i : ImageFileAction) (ctx : DebosContext)
    (args : List String) (o : PreMachineOracle) (n : Int) (dev : String)
    (hn : o.fromHumanSize i.ImageSize = Except.ok n)
    (hc : o.createImage i.ImageName n = Except.ok dev)
    (hown : i.usingLoop = false) :
    (PreMachineCall i ctx args o).2.1.Image = dev ∧
    (PreMachineCall i ctx args o).2.2.1 =
      args ++ ["--internal-image", dev] ∧
    (PreMachineCall i ctx args o).2.2.2 = Except.ok () ∧
    (PreMachineCall i ctx args o).1.usingLoop = false ∧
    (∀ ctx2 co,
      countDetach (Cleanup (PreMachineCall i ctx args o).1 ctx2 co).1 = 0 ∧
      countRemoveAttempts
        (Cleanup (PreMachineCall i ctx args o).1 ctx2 co).1 = 0) := by
  have hcall1 : (PreMachineCall i ctx args o).1 = i := rfl
  refine ⟨?_, ?_, ?_, ?_, ?_⟩
  · simp [PreMachineCall, PreMachineBody, hn, hc]
  · simp [PreMachineCall, PreMachineBody, hn, hc]
  · simp [PreMachineCall, PreMachineBody, hn, hc]
  · rw [hcall1, hown]
  · intro ctx2 co
    rw [hcall1]
    rcases hu : co.unmountResult with eu | uu <;>
      refine ⟨?_, ?_⟩ <;>
      simp [Cleanup, hu, hown, countDetach, countRemoveAttempts,
        List.countP_cons, isDetach, isRemoveAttempt]

/-- Witness for C8 at a concrete delegated preparation. -/
theorem premachine_records_device_witness :
    (PreMachineCall (mkAction "ext4") sampleContext ["--scratchsize", "4G"]
      premOracle).2.1.Image = "/dev/vda" ∧
    (PreMachineCall (mkAction "ext4") sampleContext ["--scratchsize", "4G"]
      premOracle).2.2.1 =
      ["--scratchsize", "4G"] ++ ["--internal-image", "/dev/vda"] ∧
    (PreMachineCall (mkAction "ext4") sampleContext ["--scratchsize", "4G"]
      premOracle).2.2.2 = Except.ok () ∧
    (PreMachineCall (mkAction "ext4") sampleContext ["--scratchsize", "4G"]
      premOracle).1.usingLoop = false ∧
    (∀ ctx2 co,
      countDetach (Cleanup (PreMachineCall (mkAction "ext4") sampleContext
        ["--scratchsize", "4G"] premOracle).1 ctx2 co).1 = 0 ∧
      countRemoveAttempts (Cleanup (PreMachineCall (mkAction "ext4")
        sampleContext ["--scratchsize", "4G"] premOracle).1 ctx2 co).1 = 0) :=
  premachine_records_device (mkAction "ext4") sampleContext
    ["--scratchsize", "4G"] premOracle 1000000000 "/dev/vda" rfl rfl rfl

/-- C10: whatever the underlying cause of a loop-attach failure in the
direct preparation, the returned error is the fixed message
`Failed to setup loop device - need sudo?`, the shared context is
unchanged (in particular its image field), and the ownership flag keeps
its previous value. -/
theorem attach_failure_fixed_message (i : ImageFileAction)
    (ctx : DebosContext) (o : PreNoMachineOracle) (n : Int) (e : String)
    (hn : o.fromHumanSize i.ImageSize = Except.ok n)
    (hopen : o.openResult = Except.ok ())
    (htr : o.truncResult = Except.ok ())
    (hat : o.attachResult = Except.error e) :
    (PreNoMachine i ctx o).2.2 =
      Except.error "Failed to setup loop device - need sudo?" ∧
    (PreNoMachine i ctx o).2.1 = ctx ∧
    (PreNoMachine i ctx o).1.usingLoop = i.usingLoop := by
  refine ⟨?_, ?_, ?_⟩ <;> simp [PreNoMachine, hn, hopen, htr, hat]

/-- Witness for C10 at a concrete attach failure caused by lack of
privilege. -/
theorem attach_failure_fixed_message_witness :
    (PreNoMachine (mkAction "ext4") sampleContext failAttachOracle).2.2 =
      Except.error "Failed to setup loop device - need sudo?" ∧
    (PreNoMachine (mkAction "ext4") sampleContext failAttachOracle).2.1 =
      sampleContext ∧
    (PreNoMachine (mkAction "ext4") sampleContext
      failAttachOracle).1.usingLoop = (mkAction "ext4").usingLoop :=
  attach_failure_fixed_message (mkAction "ext4") sampleContext
    failAttachOracle 1000000000 "permission denied" rfl rfl rfl rfl

end ImageFile
